import Mathlib

/-!
# Verification of the pkg install transaction (`libpkg/pkg_add.c`)

A shallow embedding of `pkg_add` and `do_extract` from `src/libpkg/pkg_add.c`,
together with theorems settling the specification claims about the install
transaction: duplicate rejection, dependency resolution, config-template
extraction, lifecycle-script ordering, and database registration gating.

External collaborators (archive reader, package database, shell execution,
filesystem) are modelled at their interface boundary, as the spec prescribes;
the control flow of `pkg_add` and `do_extract` is translated statement by
statement from the C source.
-/

namespace PkgAdd

/-! ## Outcome codes

Modelled from the spec (taxonomy in section 7) and the `EPKG_*` constants of
`pkg.h` (not part of the given source): only their distinctness is relied on.
-/

def EPKG_OK : Int := 0
def EPKG_END : Int := 1
def EPKG_FATAL : Int := 3
def EPKG_INSTALLED : Int := 4
def EPKG_DEPENDENCY : Int := 5

/-- `errno` value for a missing file, as used in `lstat(path, &st) == ENOENT`. -/
def ENOENT : Int := 2

/-! ## Data model (spec section 3, `pkg.h` accessors used by the source) -/

/-- Script phase tag (`pkg_script_type`); the `default:` case of the source's
switch is represented by `other`. -/
inductive ScriptType where
  | install
  | preInstall
  | postInstall
  | other
deriving Repr, DecidableEq

structure ScriptEntry where
  stype : ScriptType
  data  : String
deriving Repr, DecidableEq

/-- Exec phase tag (`pkg_exec_type`): `@exec` vs `@unexec` directives. -/
inductive ExecType where
  | exec
  | unexec
deriving Repr, DecidableEq

structure ExecEntry where
  etype : ExecType
  cmd   : String
deriving Repr, DecidableEq

/-- A declared dependency (`pkg_deps` element): name and version are used to
build the candidate sibling archive filename, the origin is the database
identity key. -/
structure Dep where
  name    : String
  version : String
  origin  : String
deriving Repr, DecidableEq

/-- The package descriptor (`struct pkg`) as consumed by `pkg_add`:
identity (`PKG_NAME`, `PKG_VERSION`, `PKG_ORIGIN`), dependencies, scripts
and exec directives. -/
structure Pkg where
  name    : String
  version : String
  origin  : String
  deps    : List Dep
  scripts : List ScriptEntry
  execs   : List ExecEntry
deriving Repr, DecidableEq

/-- One non-metadata archive entry: its stored pathname, its content, and
whether `archive_read_extract` succeeds on it (the archive reader is an
external collaborator; `ok` abstracts its I/O outcome). -/
structure Entry where
  pathname : String
  content  : String
  ok       : Bool
deriving Repr, DecidableEq

/-- The archive payload handed to `do_extract`: the sequence of non-metadata
entries, the `archive_error_string` text, and whether the final
`archive_read_next_header` returns `ARCHIVE_EOF` (rather than an error). -/
structure Archive where
  entries : List Entry
  errstr  : String
  eofOk   : Bool
deriving Repr, DecidableEq

/-! ## Filesystem model

An association list from path to file content; `fsWrite` shadows earlier
bindings, `fsGet` reads the most recent one. -/

abbrev Fs := List (String × String)

def fsWrite (fs : Fs) (p c : String) : Fs := (p, c) :: fs

def fsGet (fs : Fs) (p : String) : Option String :=
  (fs.find? (fun e => e.1 == p)).map (fun e => e.2)

def fsExists (fs : Fs) (p : String) : Bool := (fsGet fs p).isSome

/-- `lstat` returns `0` on success and `-1` on error (with `errno` set to
`ENOENT` when the path is absent); it never returns an `errno` value. -/
def lstat (fs : Fs) (p : String) : Int :=
  if fsExists fs p then 0 else -1

/-- If `l` ends with `suf`, the prefix of `l` before that suffix. -/
def stripSuffix (l suf : List Char) : Option (List Char) :=
  if l.length < suf.length then none
  else if l.drop (l.length - suf.length) = suf then
    some (l.take (l.length - suf.length))
  else none

/-- Modelled from the spec: `is_conf_file` (ConfigFilePolicy, spec section 4.1)
is not part of the given source. A path names a configuration template when it
carries the manager-owned suffix (the source comment's example is
`conf1.cfg.pkgconf`); the derived real target path is the path with the suffix
stripped. Non-matching input yields `none` (spec: `Plain`). -/
def is_conf_file (p : String) : Option String :=
  match stripSuffix p.toList ".pkgconf".toList with
  | some pre => some (String.mk pre)
  | none => none

/-! ## `do_extract` (source lines 18-54) -/

/-- The `do { ... } while (archive_read_next_header(...) == ARCHIVE_OK)` loop
body of `do_extract`: extract the entry verbatim to its stored path; then, if
the path is a configuration template whose real path satisfies
`lstat(path, &st) == ENOENT`, extract the same entry a second time to the real
path. Returns `(retcode, filesystem, error message)`. -/
def extractLoop (errstr : String) : List Entry → Fs → String → Int × Fs × String
  | [], fs, err => (EPKG_OK, fs, err)
  | e :: rest, fs, err =>
    if e.ok = false then (EPKG_FATAL, fs, errstr)
    else
      let fs1 := fsWrite fs e.pathname e.content
      match is_conf_file e.pathname with
      | some real =>
        if lstat fs1 real = ENOENT then
          if e.ok = false then (EPKG_FATAL, fs1, errstr)
          else extractLoop errstr rest (fsWrite fs1 real e.content) err
        else extractLoop errstr rest fs1 err
      | none => extractLoop errstr rest fs1 err

/-- `do_extract` (source lines 18-54): run the extraction loop, then treat a
final header read that is not `ARCHIVE_EOF` as fatal. -/
def do_extract (a : Archive) (fs : Fs) (err : String) : Int × Fs × String :=
  let r := extractLoop a.errstr a.entries fs err
  if r.1 = EPKG_OK ∧ a.eofOk = false then (EPKG_FATAL, r.2.1, a.errstr)
  else r

/-! ## Path helpers (`dirname`, `strrchr(path, '.')`) -/

/-- `dirname(3)`: the directory part of a path (pure model of the libc call at
source line 117; historical BSD `dirname` does not modify its argument). -/
def dirname (p : String) : String :=
  let cs := p.toList
  if '/' ∈ cs then
    match ((cs.reverse.dropWhile (fun c => c ≠ '/')).drop 1).reverse with
    | [] => "/"
    | pre => String.mk pre
  else "."

/-- `strrchr(path, '.')` at source line 118: the suffix of `path` starting at
its last `'.'` (the package's archive extension), or `none` when the path
contains no `'.'`. -/
def extOf (p : String) : Option String :=
  let cs := p.toList
  if '.' ∈ cs then
    some (String.mk ('.' :: (cs.reverse.takeWhile (fun c => c ≠ '.')).reverse))
  else none

/-! ## Observable events and transaction outputs -/

/-- Observable side effects of one transaction, in order: each `system(3)`
invocation with the command text and the exit status the shell returned (the
source discards the status), and each invocation of `do_extract`. -/
inductive Event where
  | sys (cmd : String) (status : Int)
  | extract
deriving Repr, DecidableEq

/-- The mutable state threaded through a transaction: the database (list of
registered origins), the filesystem, and the `pkg_error` message slot. -/
structure World where
  db  : List String
  fs  : Fs
  err : String
deriving Repr, DecidableEq

/-- The full result of one `pkg_add` invocation: the returned code, the final
world, the event trace, the final value of `*pkg_p` (`none` when the caller
passed a `NULL` out-pointer, `some v` when it passed a pointer now holding
`v`), and whether every archive handle opened by this invocation was released
(`archive_read_finish`). -/
structure AddOut where
  retcode  : Int
  db       : List String
  fs       : Fs
  err      : String
  trace    : List Event
  outp     : Option (Option Pkg)
  released : Bool
deriving Repr, DecidableEq

/-- Result of the code before the `cleanup:` label (source lines 79-218):
code, world, trace, and the parsed descriptor (`none` when `pkg_open2`
failed before producing one). -/
structure BodyOut where
  retcode : Int
  db      : List String
  fs      : Fs
  err     : String
  trace   : List Event
  pkg     : Option Pkg
deriving Repr, DecidableEq

/-- Result of the dependency loop (source lines 123-152). -/
structure DepOut where
  retcode : Int
  w       : World
  trace   : List Event
deriving Repr, DecidableEq

/-- Outcome of `pkg_open2` for a given path: a descriptor with the payload
positioned at the first non-metadata entry (`EPKG_OK`), a descriptor for an
archive with no installable entries (`EPKG_END`), or a failure code with its
message. Modelled from the spec (section 6, archive reader contract):
`pkg_open2` is not part of the given source. -/
inductive OpenRes where
  | ok (p : Pkg) (a : Archive)
  | noFiles (p : Pkg) (a : Archive)
  | err (code : Int) (msg : String)
deriving Repr, DecidableEq

/-- The external collaborators fixed for a run: what `pkg_open2` yields at each
path, and which paths `access(dpath, F_OK) == 0` reports as existing. -/
structure Collab where
  open2  : String → OpenRes
  access : String → Bool

/-! ## Lifecycle scripts and exec directives (source lines 154-218) -/

/-- Command rendered by the pre-install loop (source lines 159-178):
`PKG_SCRIPT_INSTALL` scripts get the `INSTALL` phase marker,
`PKG_SCRIPT_PRE_INSTALL` scripts get none, other types are ignored. -/
def preScriptCmd (pkg : Pkg) (sc : ScriptEntry) : Option String :=
  match sc.stype with
  | .install => some ("set -- " ++ pkg.name ++ "-" ++ pkg.version ++ " INSTALL\n" ++ sc.data)
  | .preInstall => some ("set -- " ++ pkg.name ++ "-" ++ pkg.version ++ "\n" ++ sc.data)
  | _ => none

/-- Command rendered by the post-install loop (source lines 189-208):
`PKG_SCRIPT_INSTALL` scripts get the `POST-INSTALL` phase marker,
`PKG_SCRIPT_POST_INSTALL` scripts get none, other types are ignored. -/
def postScriptCmd (pkg : Pkg) (sc : ScriptEntry) : Option String :=
  match sc.stype with
  | .install => some ("set -- " ++ pkg.name ++ "-" ++ pkg.version ++ " POST-INSTALL\n" ++ sc.data)
  | .postInstall => some ("set -- " ++ pkg.name ++ "-" ++ pkg.version ++ "\n" ++ sc.data)
  | _ => none

/-- Run one script loop: `system` each rendered command in declared order; the
exit status `s cmd` is recorded in the trace and otherwise discarded, exactly
as the source ignores the return value of `system(3)`. -/
def runScripts (s : String → Int) (render : ScriptEntry → Option String) :
    List ScriptEntry → List Event
  | [] => []
  | sc :: rest =>
    match render sc with
    | some c => Event.sys c (s c) :: runScripts s render rest
    | none => runScripts s render rest

/-- The `@exec` loop (source lines 215-218): `system` the command text of each
entry whose type is `PKG_EXEC`, in declared order; `PKG_UNEXEC` entries are
skipped. -/
def runExecs (s : String → Int) : List ExecEntry → List Event
  | [] => []
  | e :: rest =>
    if e.etype = ExecType.exec then Event.sys e.cmd (s e.cmd) :: runExecs s rest
    else runExecs s rest

/-! ## The install transaction (`pkg_add`, source lines 56-234) -/

/-- The dependency loop (source lines 123-152). A dependency is satisfied
(`pkg_resolvdeps` marks it other than `PKG_NOTFOUND`) exactly when a record
with its origin is in the database; `pkg_resolvdeps` is re-run against the
current database after every successful recursive install, so each dependency
is examined against the database as of its turn. For an unsatisfied
dependency, the candidate sibling archive `basedir/<name>-<version><ext>` is
probed with `access`; if present, `recurse` performs the nested install
(`pkg_add(db, dpath, NULL)`), whose failure is wrapped into a fatal error and
whose success lets the loop continue; if absent, the loop aborts with
`EPKG_DEPENDENCY`. -/
def depLoop (recurse : World → String → AddOut) (acc : String → Bool)
    (basedir ext : String) : World → List Dep → DepOut
  | w, [] => ⟨EPKG_OK, w, []⟩
  | w, d :: rest =>
    if d.origin ∈ w.db then depLoop recurse acc basedir ext w rest
    else
      let dpath := basedir ++ "/" ++ d.name ++ "-" ++ d.version ++ ext
      if acc dpath then
        let r := recurse w dpath
        if r.retcode = EPKG_OK then
          let tail := depLoop recurse acc basedir ext ⟨r.db, r.fs, r.err⟩ rest
          ⟨tail.retcode, tail.w, r.trace ++ tail.trace⟩
        else
          ⟨EPKG_FATAL,
           ⟨r.db, r.fs, "error while installing " ++ dpath ++ " (dependency): " ++ r.err⟩,
           r.trace⟩
      else
        ⟨EPKG_DEPENDENCY,
         ⟨w.db, w.fs, "missing " ++ d.name ++ "-" ++ d.version ++ " dependency"⟩,
         []⟩

/-- The transaction body after a successful `pkg_open2` (source lines 92-218):
duplicate check against the database by origin (the query itself is total, per
the spec's database contract), extension check, dependency loop, pre-install
scripts, extraction (skipped when `pkg_open2` reported no installable
entries), post-install scripts, and exec directives. -/
def bodyAfterOpen (col : Collab) (s : String → Int) (recurse : World → String → AddOut)
    (w : World) (path : String) (pkg : Pkg) (a : Archive) (doExtract : Bool) : BodyOut :=
  if pkg.origin ∈ w.db then
    ⟨EPKG_INSTALLED, w.db, w.fs, "package already installed", [], some pkg⟩
  else
    match extOf path with
    | none => ⟨EPKG_FATAL, w.db, w.fs, path ++ " has no extension", [], some pkg⟩
    | some ext =>
      let dl := depLoop recurse col.access (dirname path) ext w pkg.deps
      if dl.retcode = EPKG_OK then
        let preEvs := runScripts s (preScriptCmd pkg) pkg.scripts
        let postEvs := runScripts s (postScriptCmd pkg) pkg.scripts
        let execEvs := runExecs s pkg.execs
        if doExtract then
          let ex := do_extract a dl.w.fs dl.w.err
          if ex.1 = EPKG_OK then
            ⟨EPKG_OK, dl.w.db, ex.2.1, ex.2.2,
             dl.trace ++ preEvs ++ [Event.extract] ++ postEvs ++ execEvs, some pkg⟩
          else
            ⟨ex.1, dl.w.db, ex.2.1, ex.2.2,
             dl.trace ++ preEvs ++ [Event.extract], some pkg⟩
        else
          ⟨EPKG_OK, dl.w.db, dl.w.fs, dl.w.err,
           dl.trace ++ preEvs ++ postEvs ++ execEvs, some pkg⟩
      else
        ⟨dl.retcode, dl.w.db, dl.w.fs, dl.w.err, dl.trace, some pkg⟩

/-- The transaction body (source lines 79-218): open the archive, then run
`bodyAfterOpen`; `EPKG_END` from `pkg_open2` clears the `extract` flag, any
other non-`EPKG_OK` return aborts. -/
def pkg_addBody (col : Collab) (s : String → Int) (recurse : World → String → AddOut)
    (w : World) (path : String) : BodyOut :=
  match col.open2 path with
  | .ok pkg a => bodyAfterOpen col s recurse w path pkg a true
  | .noFiles pkg a => bodyAfterOpen col s recurse w path pkg a false
  | .err code msg => ⟨code, w.db, w.fs, msg, [], none⟩

/-- `pkg_add` (source lines 56-234). A `NULL` path returns
`ERROR_BAD_ARG("path")` before the cleanup code, leaving `*pkg_p` untouched.
Otherwise the body runs and the `cleanup:` label (lines 220-233) releases the
archive, registers the package exactly when the body's retcode is `EPKG_OK`
(`pkgdb_register_pkg`, modelled from the spec as appending the origin and
returning `EPKG_OK`), and stores the descriptor (on success) or `NULL` into a
non-`NULL` `*pkg_p`. The `fuel` argument bounds the dependency recursion
depth, which the C code leaves unbounded; an exhausted fuel behaves like a
fatal error. -/
def pkg_add (col : Collab) (s : String → Int) (fuel : Nat) (w : World)
    (path : Option String) (pp : Option (Option Pkg)) : AddOut :=
  match path with
  | none =>
    { retcode := EPKG_FATAL, db := w.db, fs := w.fs, err := "path is NULL",
      trace := [], outp := pp, released := true }
  | some p =>
    match fuel with
    | 0 =>
      { retcode := EPKG_FATAL, db := w.db, fs := w.fs, err := w.err,
        trace := [], outp := pp.map (fun _ => none), released := true }
    | fuel + 1 =>
      let b := pkg_addBody col s
        (fun w2 p2 => pkg_add col s fuel w2 (some p2) none) w p
      let rc := if b.retcode = EPKG_OK then EPKG_OK else b.retcode
      let db2 := if b.retcode = EPKG_OK
        then b.db ++ (b.pkg.map Pkg.origin).toList else b.db
      { retcode := rc, db := db2, fs := b.fs, err := b.err, trace := b.trace,
        outp := pp.map (fun _ => if rc = EPKG_OK then b.pkg else none),
        released := true }

/-- The recursive installer as invoked for dependencies:
`pkg_add(db, dpath, NULL)` with one unit of fuel consumed. -/
def pkgAddRec (col : Collab) (s : String → Int) (fuel : Nat) :
    World → String → AddOut :=
  fun w p => pkg_add col s fuel w (some p) none

/-! ## Concrete fixtures

Small closed environments used to evaluate the model at concrete inputs:
an empty initial world, a constant shell, and a handful of packages and
collaborator configurations. -/

def w0 : World := ⟨[], [], ""⟩

def zeroS : String → Int := fun _ => 0

def depB : Dep := ⟨"b", "2.0", "org/b"⟩

def depC : Dep := ⟨"c", "3.0", "org/c"⟩

def depCC : Dep := ⟨"cc", "3.0", "org/c"⟩

def archOk : Archive := ⟨[⟨"f", "data", true⟩], "aerr", true⟩

/-- An archive whose single entry is a configuration template
(`conf1.cfg.pkgconf`), as in the source comment at lines 36-38. -/
def archTpl : Archive := ⟨[⟨"conf1.cfg.pkgconf", "tpl", true⟩], "aerr", true⟩

def pkgPlain : Pkg := ⟨"a", "1.0", "org/a", [], [], []⟩

def pkgWithScripts : Pkg :=
  ⟨"a", "1.0", "org/a", [],
   [⟨ScriptType.preInstall, "P"⟩, ⟨ScriptType.install, "I"⟩,
    ⟨ScriptType.postInstall, "Q"⟩],
   [⟨ExecType.exec, "E"⟩, ⟨ExecType.unexec, "U"⟩]⟩

def pkgDepMissing : Pkg := ⟨"a", "1.0", "org/a", [depB], [], []⟩

def pkgDepTwo : Pkg := ⟨"a", "1.0", "org/a", [depB, depC], [], []⟩

def pkgB : Pkg := ⟨"b", "2.0", "org/b", [depCC], [], []⟩

def pkgCC : Pkg := ⟨"cc", "3.0", "org/c", [], [], []⟩

def colPlain : Collab :=
  { open2 := fun p =>
      if p = "d/a-1.0.txz" then OpenRes.ok pkgPlain archOk
      else OpenRes.err EPKG_FATAL "boom",
    access := fun _ => false }

def colScripts : Collab :=
  { open2 := fun p =>
      if p = "d/a-1.0.txz" then OpenRes.ok pkgWithScripts archOk
      else OpenRes.err EPKG_FATAL "boom",
    access := fun _ => false }

def colNoFiles : Collab :=
  { open2 := fun p =>
      if p = "d/a-1.0.txz" then OpenRes.noFiles pkgWithScripts archOk
      else OpenRes.err EPKG_FATAL "boom",
    access := fun _ => false }

def colNoExt : Collab :=
  { open2 := fun p =>
      if p = "noext" then OpenRes.ok pkgPlain archOk
      else OpenRes.err EPKG_FATAL "boom",
    access := fun _ => false }

def colDepMissing : Collab :=
  { open2 := fun p =>
      if p = "d/a-1.0.txz" then OpenRes.ok pkgDepMissing archOk
      else OpenRes.err EPKG_FATAL "boom",
    access := fun _ => false }

/-- The first dependency's candidate archive exists but fails to open. -/
def colDepFail : Collab :=
  { open2 := fun p =>
      if p = "d/a-1.0.txz" then OpenRes.ok pkgDepTwo archOk
      else OpenRes.err EPKG_FATAL "boom",
    access := fun p => p == "d/b-2.0.txz" }

/-- Package `a` depends on `b` and `c`; `b`'s archive is present and itself
depends on `cc`, whose archive is present and which registers origin `org/c`
— the origin `c` needs — while no archive named after `c` exists. -/
def colDepTwo : Collab :=
  { open2 := fun p =>
      if p = "d/a-1.0.txz" then OpenRes.ok pkgDepTwo archOk
      else if p = "d/b-2.0.txz" then OpenRes.ok pkgB archOk
      else if p = "d/cc-3.0.txz" then OpenRes.ok pkgCC archOk
      else OpenRes.err EPKG_FATAL "boom",
    access := fun p => p == "d/b-2.0.txz" || p == "d/cc-3.0.txz" }

theorem pkg_add_succ (col : Collab) (s : String → Int) (fuel : Nat) (w : World)
    (p : String) (pp : Option (Option Pkg)) :
    pkg_add col s (fuel + 1) w (some p) pp =
      (let b := pkg_addBody col s (pkgAddRec col s fuel) w p
       let rc := if b.retcode = EPKG_OK then EPKG_OK else b.retcode
       let db2 := if b.retcode = EPKG_OK
         then b.db ++ (b.pkg.map Pkg.origin).toList else b.db
       { retcode := rc, db := db2, fs := b.fs, err := b.err, trace := b.trace,
         outp := pp.map (fun _ => if rc = EPKG_OK then b.pkg else none),
         released := true }) := rfl

/-! ## Helper lemmas -/

theorem EPKG_FATAL_ne_OK : EPKG_FATAL ≠ EPKG_OK := by decide

theorem EPKG_INSTALLED_ne_OK : EPKG_INSTALLED ≠ EPKG_OK := by decide

theorem EPKG_DEPENDENCY_ne_OK : EPKG_DEPENDENCY ≠ EPKG_OK := by decide

/-- `lstat` only ever returns `0` or `-1`, never an `errno` value, so the
source's test `lstat(path, &st) == ENOENT` at line 41 can never hold. -/
theorem lstat_ne_ENOENT (fs : Fs) (p : String) : lstat fs p ≠ ENOENT := by
  unfold lstat ENOENT
  split <;> decide

/-- Dependencies already present in the database are skipped by the loop. -/
theorem depLoop_skip_sat (recurse : World → String → AddOut) (acc : String → Bool)
    (basedir ext : String) (w : World) (pre ds : List Dep)
    (h : ∀ d ∈ pre, d.origin ∈ w.db) :
    depLoop recurse acc basedir ext w (pre ++ ds) =
      depLoop recurse acc basedir ext w ds := by
  induction pre with
  | nil => rfl
  | cons d rest ih =>
    have hd : d.origin ∈ w.db := h d (List.mem_cons_self d rest)
    simp only [List.cons_append, depLoop, if_pos hd]
    exact ih (fun x hx => h x (List.mem_cons_of_mem d hx))

/-- When every declared dependency is satisfied, the loop is a no-op. -/
theorem depLoop_all_sat (recurse : World → String → AddOut) (acc : String → Bool)
    (basedir ext : String) (w : World) (ds : List Dep)
    (h : ∀ d ∈ ds, d.origin ∈ w.db) :
    depLoop recurse acc basedir ext w ds = ⟨EPKG_OK, w, []⟩ := by
  have := depLoop_skip_sat recurse acc basedir ext w ds [] h
  simpa using this

/-- Unfolding lemma for the extraction loop on a non-empty entry list. -/
theorem extractLoop_cons (errstr : String) (e : Entry) (rest : List Entry)
    (fs : Fs) (err : String) :
    extractLoop errstr (e :: rest) fs err =
      (if e.ok = false then (EPKG_FATAL, fs, errstr)
       else
         let fs1 := fsWrite fs e.pathname e.content
         match is_conf_file e.pathname with
         | some real =>
           if lstat fs1 real = ENOENT then
             if e.ok = false then (EPKG_FATAL, fs1, errstr)
             else extractLoop errstr rest (fsWrite fs1 real e.content) err
           else extractLoop errstr rest fs1 err
         | none => extractLoop errstr rest fs1 err) := rfl

/-- When every entry extracts successfully, the extraction loop succeeds. -/
theorem extractLoop_ok (errstr : String) (es : List Entry) (fs : Fs) (err : String)
    (h : ∀ e ∈ es, e.ok = true) :
    (extractLoop errstr es fs err).1 = EPKG_OK := by
  induction es generalizing fs with
  | nil => rfl
  | cons e rest ih =>
    have he : ¬ (e.ok = false) := by simp [h e (List.mem_cons_self e rest)]
    have hrest : ∀ x ∈ rest, x.ok = true :=
      fun x hx => h x (List.mem_cons_of_mem e hx)
    rw [extractLoop_cons, if_neg he]
    cases hc : is_conf_file e.pathname with
    | none => exact ih _ hrest
    | some real =>
      dsimp only
      by_cases hl : lstat (fsWrite fs e.pathname e.content) real = ENOENT
      · rw [if_pos hl, if_neg he]
        exact ih _ hrest
      · rw [if_neg hl]
        exact ih _ hrest

/-- When every entry extracts and the final header read reaches `ARCHIVE_EOF`,
`do_extract` returns `EPKG_OK`. -/
theorem do_extract_ok (a : Archive) (fs : Fs) (err : String)
    (h : ∀ e ∈ a.entries, e.ok = true) (heof : a.eofOk = true) :
    (do_extract a fs err).1 = EPKG_OK := by
  have h1 := extractLoop_ok a.errstr a.entries fs err h
  simp [do_extract, heof, h1]

/-- Script loops only emit `system` events, never an extraction. -/
theorem runScripts_no_extract (s : String → Int) (render : ScriptEntry → Option String)
    (scs : List ScriptEntry) : Event.extract ∉ runScripts s render scs := by
  induction scs with
  | nil => simp [runScripts]
  | cons sc rest ih =>
    simp only [runScripts]
    split <;> simp_all

/-- The exec loop only emits `system` events, never an extraction. -/
theorem runExecs_no_extract (s : String → Int) (es : List ExecEntry) :
    Event.extract ∉ runExecs s es := by
  induction es with
  | nil => simp [runExecs]
  | cons e rest ih =>
    simp only [runExecs]
    split <;> simp_all

/-- The commands executed by the exec loop are exactly those of the entries
whose phase is `PKG_EXEC`, in declared order; `PKG_UNEXEC` entries never run. -/
theorem runExecs_eq_filter (s : String → Int) (es : List ExecEntry) :
    runExecs s es =
      (es.filter (fun e => e.etype == ExecType.exec)).map
        (fun e => Event.sys e.cmd (s e.cmd)) := by
  induction es with
  | nil => rfl
  | cons e rest ih =>
    by_cases he : e.etype = ExecType.exec <;>
      simp [runExecs, List.filter_cons, he, ih]

/-- Every branch of the body after a successful open carries the parsed
descriptor. -/
theorem bodyAfterOpen_pkg (col : Collab) (s : String → Int)
    (recurse : World → String → AddOut) (w : World) (path : String)
    (pkg : Pkg) (a : Archive) (dx : Bool) :
    (bodyAfterOpen col s recurse w path pkg a dx).pkg = some pkg := by
  simp only [bodyAfterOpen]
  repeat' split
  all_goals rfl

/-- The body of a successful full install: open succeeded with payload
entries, the package is not installed, the path has an extension, every
declared dependency is already satisfied, and extraction succeeds. -/
theorem body_success (col : Collab) (s : String → Int)
    (recurse : World → String → AddOut) (w : World) (path : String)
    (pkg : Pkg) (a : Archive) (ext : String)
    (hdup : pkg.origin ∉ w.db) (hext : extOf path = some ext)
    (hdeps : ∀ x ∈ pkg.deps, x.origin ∈ w.db)
    (hok : ∀ e ∈ a.entries, e.ok = true) (heof : a.eofOk = true) :
    bodyAfterOpen col s recurse w path pkg a true =
      ⟨EPKG_OK, w.db, (do_extract a w.fs w.err).2.1, (do_extract a w.fs w.err).2.2,
       runScripts s (preScriptCmd pkg) pkg.scripts ++ [Event.extract] ++
         runScripts s (postScriptCmd pkg) pkg.scripts ++ runExecs s pkg.execs,
       some pkg⟩ := by
  have hdl := depLoop_all_sat recurse col.access (dirname path) ext w pkg.deps hdeps
  have hex := do_extract_ok a w.fs w.err hok heof
  simp [bodyAfterOpen, hdup, hext, hdl, hex]

/-- The body of a successful install of an archive with no installable
entries: extraction is skipped, everything else runs. -/
theorem body_noFiles (col : Collab) (s : String → Int)
    (recurse : World → String → AddOut) (w : World) (path : String)
    (pkg : Pkg) (a : Archive) (ext : String)
    (hdup : pkg.origin ∉ w.db) (hext : extOf path = some ext)
    (hdeps : ∀ x ∈ pkg.deps, x.origin ∈ w.db) :
    bodyAfterOpen col s recurse w path pkg a false =
      ⟨EPKG_OK, w.db, w.fs, w.err,
       runScripts s (preScriptCmd pkg) pkg.scripts ++
         runScripts s (postScriptCmd pkg) pkg.scripts ++ runExecs s pkg.execs,
       some pkg⟩ := by
  have hdl := depLoop_all_sat recurse col.access (dirname path) ext w pkg.deps hdeps
  simp [bodyAfterOpen, hdup, hext, hdl]

/-! ## Claim theorems -/

/-- C10: whenever the archive path contains no `'.'` character, the
transaction aborts with a fatal "has no extension" error before running any
script, extraction, or registration — for every package, in particular one
with no dependencies or with all dependencies already satisfied: the
extension check at source lines 118-121 is unconditional, not performed only
when a candidate dependency filename must be built. -/
theorem C10_extension_check_unconditional (col : Collab) (s : String → Int)
    (fuel : Nat) (w : World) (path : String) (pkg : Pkg) (a : Archive)
    (pp : Option (Option Pkg))
    (hopen : col.open2 path = OpenRes.ok pkg a ∨
             col.open2 path = OpenRes.noFiles pkg a)
    (hdup : pkg.origin ∉ w.db)
    (hext : extOf path = none) :
    (pkg_add col s (fuel + 1) w (some path) pp).retcode = EPKG_FATAL ∧
    (pkg_add col s (fuel + 1) w (some path) pp).err = path ++ " has no extension" ∧
    (pkg_add col s (fuel + 1) w (some path) pp).db = w.db ∧
    (pkg_add col s (fuel + 1) w (some path) pp).fs = w.fs ∧
    (pkg_add col s (fuel + 1) w (some path) pp).trace = [] := by
  have hb : pkg_addBody col s (pkgAddRec col s fuel) w path =
      ⟨EPKG_FATAL, w.db, w.fs, path ++ " has no extension", [], some pkg⟩ := by
    rcases hopen with h | h <;> simp [pkg_addBody, h, bodyAfterOpen, hdup, hext]
  rw [pkg_add_succ]
  simp [hb, EPKG_FATAL_ne_OK]

/-- C3: when the first unresolved declared dependency (all dependencies
declared before it being satisfied) has no candidate sibling archive
`<basedir>/<name>-<version><ext>`, the transaction aborts with
`EPKG_DEPENDENCY` and the message "missing <name>-<version> dependency",
registers nothing for the dependent package, runs no script and no
extraction, and never reaches the dependencies declared after it (the result
is the same for every tail `post`). -/
theorem C3_missing_dependency_halts (col : Collab) (s : String → Int)
    (fuel : Nat) (w : World) (path : String) (pkg : Pkg) (a : Archive)
    (pp : Option (Option Pkg)) (pre post : List Dep) (d : Dep) (ext : String)
    (hopen : col.open2 path = OpenRes.ok pkg a ∨
             col.open2 path = OpenRes.noFiles pkg a)
    (hdup : pkg.origin ∉ w.db)
    (hext : extOf path = some ext)
    (hdeps : pkg.deps = pre ++ d :: post)
    (hpre : ∀ x ∈ pre, x.origin ∈ w.db)
    (hd : d.origin ∉ w.db)
    (hacc : col.access (dirname path ++ "/" ++ d.name ++ "-" ++ d.version ++ ext)
            = false) :
    (pkg_add col s (fuel + 1) w (some path) pp).retcode = EPKG_DEPENDENCY ∧
    (pkg_add col s (fuel + 1) w (some path) pp).err =
      "missing " ++ d.name ++ "-" ++ d.version ++ " dependency" ∧
    (pkg_add col s (fuel + 1) w (some path) pp).db = w.db ∧
    (pkg_add col s (fuel + 1) w (some path) pp).fs = w.fs ∧
    (pkg_add col s (fuel + 1) w (some path) pp).trace = [] ∧
    pkg.origin ∉ (pkg_add col s (fuel + 1) w (some path) pp).db := by
  have hdl : depLoop (pkgAddRec col s fuel) col.access (dirname path) ext w pkg.deps
      = ⟨EPKG_DEPENDENCY,
         ⟨w.db, w.fs, "missing " ++ d.name ++ "-" ++ d.version ++ " dependency"⟩,
         []⟩ := by
    rw [hdeps, depLoop_skip_sat _ _ _ _ _ _ _ hpre]
    simp only [depLoop, if_neg hd, hacc]
    simp
  have hb : pkg_addBody col s (pkgAddRec col s fuel) w path =
      ⟨EPKG_DEPENDENCY, w.db, w.fs,
       "missing " ++ d.name ++ "-" ++ d.version ++ " dependency", [], some pkg⟩ := by
    rcases hopen with h | h <;>
      simp [pkg_addBody, h, bodyAfterOpen, hdup, hext, hdl, EPKG_DEPENDENCY_ne_OK]
  rw [pkg_add_succ]
  simp [hb, EPKG_DEPENDENCY_ne_OK, hdup]

/-- C5: a package whose identity is already in the database is rejected with
`EPKG_INSTALLED` — distinct from both success and the generic fatal code —
with no extraction, no script, and no registration (database, filesystem and
trace unchanged); and installing the same identity twice from a fresh state
yields success then `EPKG_INSTALLED`, leaving exactly one record for that
identity. -/
theorem C5_idempotent_rejection (col : Collab) (s : String → Int) (fuel : Nat)
    (w : World) (path : String) (pkg : Pkg) (a : Archive) (ext : String)
    (pp : Option (Option Pkg))
    (hopen : col.open2 path = OpenRes.ok pkg a)
    (hdup : pkg.origin ∉ w.db)
    (hdeps : pkg.deps = [])
    (hext : extOf path = some ext)
    (hok : ∀ e ∈ a.entries, e.ok = true)
    (heof : a.eofOk = true) :
    EPKG_INSTALLED ≠ EPKG_OK ∧ EPKG_INSTALLED ≠ EPKG_FATAL ∧
    (∀ w2 : World, pkg.origin ∈ w2.db →
      (pkg_add col s (fuel + 1) w2 (some path) pp).retcode = EPKG_INSTALLED ∧
      (pkg_add col s (fuel + 1) w2 (some path) pp).err = "package already installed" ∧
      (pkg_add col s (fuel + 1) w2 (some path) pp).db = w2.db ∧
      (pkg_add col s (fuel + 1) w2 (some path) pp).fs = w2.fs ∧
      (pkg_add col s (fuel + 1) w2 (some path) pp).trace = []) ∧
    (pkg_add col s (fuel + 1) w (some path) pp).retcode = EPKG_OK ∧
    (pkg_add col s (fuel + 1) w (some path) pp).db = w.db ++ [pkg.origin] ∧
    (pkg_add col s (fuel + 1)
        ⟨(pkg_add col s (fuel + 1) w (some path) pp).db,
         (pkg_add col s (fuel + 1) w (some path) pp).fs,
         (pkg_add col s (fuel + 1) w (some path) pp).err⟩
        (some path) pp).retcode = EPKG_INSTALLED ∧
    ((pkg_add col s (fuel + 1)
        ⟨(pkg_add col s (fuel + 1) w (some path) pp).db,
         (pkg_add col s (fuel + 1) w (some path) pp).fs,
         (pkg_add col s (fuel + 1) w (some path) pp).err⟩
        (some path) pp).db).count pkg.origin = 1 := by
  have hinst : ∀ w2 : World, pkg.origin ∈ w2.db →
      pkg_add col s (fuel + 1) w2 (some path) pp =
        { retcode := EPKG_INSTALLED, db := w2.db, fs := w2.fs,
          err := "package already installed", trace := [],
          outp := pp.map (fun _ => none), released := true } := by
    intro w2 h2
    have hb : pkg_addBody col s (pkgAddRec col s fuel) w2 path =
        ⟨EPKG_INSTALLED, w2.db, w2.fs, "package already installed", [], some pkg⟩ := by
      simp [pkg_addBody, hopen, bodyAfterOpen, h2]
    rw [pkg_add_succ]
    simp [hb, EPKG_INSTALLED_ne_OK]
  have hdeps2 : ∀ x ∈ pkg.deps, x.origin ∈ w.db := by
    rw [hdeps]; intro x hx; exact absurd hx (List.not_mem_nil x)
  have hb1 : pkg_addBody col s (pkgAddRec col s fuel) w path =
      ⟨EPKG_OK, w.db, (do_extract a w.fs w.err).2.1, (do_extract a w.fs w.err).2.2,
       runScripts s (preScriptCmd pkg) pkg.scripts ++ [Event.extract] ++
         runScripts s (postScriptCmd pkg) pkg.scripts ++ runExecs s pkg.execs,
       some pkg⟩ := by
    rw [pkg_addBody, hopen]
    exact body_success col s _ w path pkg a ext hdup hext hdeps2 hok heof
  have hr1 : (pkg_add col s (fuel + 1) w (some path) pp).db = w.db ++ [pkg.origin] ∧
      (pkg_add col s (fuel + 1) w (some path) pp).retcode = EPKG_OK := by
    rw [pkg_add_succ]
    simp [hb1]
  have hmem : pkg.origin ∈ (pkg_add col s (fuel + 1) w (some path) pp).db := by
    rw [hr1.1]; simp
  have h2 := hinst ⟨(pkg_add col s (fuel + 1) w (some path) pp).db,
      (pkg_add col s (fuel + 1) w (some path) pp).fs,
      (pkg_add col s (fuel + 1) w (some path) pp).err⟩ hmem
  refine ⟨by decide, by decide, fun w2 hw2 => by simp [hinst w2 hw2], hr1.2, hr1.1, ?_, ?_⟩
  · rw [h2]
  · rw [h2]
    simp only [hr1.1]
    rw [List.count_append]
    rw [List.count_eq_zero.mpr hdup]
    simp

/-- C6: an archive with metadata but no installable file entries (`pkg_open2`
returns `EPKG_END`) is a non-error outcome: extraction is skipped (no extract
event, filesystem unchanged) while the duplicate check, dependency
resolution, both script loops, the exec directives and registration all still
run, so the package ends up registered. -/
theorem C6_no_entries_still_registers (col : Collab) (s : String → Int)
    (fuel : Nat) (w : World) (path : String) (pkg : Pkg) (a : Archive)
    (ext : String) (pp : Option (Option Pkg))
    (hopen : col.open2 path = OpenRes.noFiles pkg a)
    (hdup : pkg.origin ∉ w.db)
    (hext : extOf path = some ext)
    (hdeps : ∀ x ∈ pkg.deps, x.origin ∈ w.db) :
    (pkg_add col s (fuel + 1) w (some path) pp).retcode = EPKG_OK ∧
    (pkg_add col s (fuel + 1) w (some path) pp).db = w.db ++ [pkg.origin] ∧
    (pkg_add col s (fuel + 1) w (some path) pp).fs = w.fs ∧
    (pkg_add col s (fuel + 1) w (some path) pp).trace =
      runScripts s (preScriptCmd pkg) pkg.scripts ++
        runScripts s (postScriptCmd pkg) pkg.scripts ++ runExecs s pkg.execs ∧
    Event.extract ∉ (pkg_add col s (fuel + 1) w (some path) pp).trace := by
  have hb : pkg_addBody col s (pkgAddRec col s fuel) w path =
      ⟨EPKG_OK, w.db, w.fs, w.err,
       runScripts s (preScriptCmd pkg) pkg.scripts ++
         runScripts s (postScriptCmd pkg) pkg.scripts ++ runExecs s pkg.execs,
       some pkg⟩ := by
    rw [pkg_addBody, hopen]
    exact body_noFiles col s _ w path pkg a ext hdup hext hdeps
  rw [pkg_add_succ]
  refine ⟨by simp [hb], by simp [hb], by simp [hb], by simp [hb], ?_⟩
  simp only [hb]
  simp [runScripts_no_extract, runExecs_no_extract]

/-- C7: for a package declaring a PreInstall, an Install and a PostInstall
script (in that archive order) and any list of exec directives, the observed
event order is: PreInstall, Install with the pre-phase `INSTALL` marker,
extraction, Install with the `POST-INSTALL` marker, PostInstall, then the
exec directives; and the exec directives executed are exactly those whose
phase is `PKG_EXEC` (never `PKG_UNEXEC`), in declared order. -/
theorem C7_script_exec_order (col : Collab) (s : String → Int) (fuel : Nat)
    (w : World) (path : String) (pkg : Pkg) (a : Archive) (ext : String)
    (pp : Option (Option Pkg)) (s1 s2 s3 : String)
    (hopen : col.open2 path = OpenRes.ok pkg a)
    (hdup : pkg.origin ∉ w.db)
    (hext : extOf path = some ext)
    (hdeps : ∀ x ∈ pkg.deps, x.origin ∈ w.db)
    (hok : ∀ e ∈ a.entries, e.ok = true)
    (heof : a.eofOk = true)
    (hscr : pkg.scripts = [⟨ScriptType.preInstall, s1⟩, ⟨ScriptType.install, s2⟩,
                           ⟨ScriptType.postInstall, s3⟩]) :
    (pkg_add col s (fuel + 1) w (some path) pp).trace =
      [Event.sys ("set -- " ++ pkg.name ++ "-" ++ pkg.version ++ "\n" ++ s1)
         (s ("set -- " ++ pkg.name ++ "-" ++ pkg.version ++ "\n" ++ s1)),
       Event.sys ("set -- " ++ pkg.name ++ "-" ++ pkg.version ++ " INSTALL\n" ++ s2)
         (s ("set -- " ++ pkg.name ++ "-" ++ pkg.version ++ " INSTALL\n" ++ s2)),
       Event.extract,
       Event.sys ("set -- " ++ pkg.name ++ "-" ++ pkg.version ++ " POST-INSTALL\n" ++ s2)
         (s ("set -- " ++ pkg.name ++ "-" ++ pkg.version ++ " POST-INSTALL\n" ++ s2)),
       Event.sys ("set -- " ++ pkg.name ++ "-" ++ pkg.version ++ "\n" ++ s3)
         (s ("set -- " ++ pkg.name ++ "-" ++ pkg.version ++ "\n" ++ s3))] ++
      runExecs s pkg.execs ∧
    runExecs s pkg.execs =
      (pkg.execs.filter (fun e => e.etype == ExecType.exec)).map
        (fun e => Event.sys e.cmd (s e.cmd)) := by
  have hb : pkg_addBody col s (pkgAddRec col s fuel) w path =
      ⟨EPKG_OK, w.db, (do_extract a w.fs w.err).2.1, (do_extract a w.fs w.err).2.2,
       runScripts s (preScriptCmd pkg) pkg.scripts ++ [Event.extract] ++
         runScripts s (postScriptCmd pkg) pkg.scripts ++ runExecs s pkg.execs,
       some pkg⟩ := by
    rw [pkg_addBody, hopen]
    exact body_success col s _ w path pkg a ext hdup hext hdeps hok heof
  have hpre : runScripts s (preScriptCmd pkg) pkg.scripts =
      [Event.sys ("set -- " ++ pkg.name ++ "-" ++ pkg.version ++ "\n" ++ s1)
         (s ("set -- " ++ pkg.name ++ "-" ++ pkg.version ++ "\n" ++ s1)),
       Event.sys ("set -- " ++ pkg.name ++ "-" ++ pkg.version ++ " INSTALL\n" ++ s2)
         (s ("set -- " ++ pkg.name ++ "-" ++ pkg.version ++ " INSTALL\n" ++ s2))] := by
    rw [hscr]
    simp [runScripts, preScriptCmd]
  have hpost : runScripts s (postScriptCmd pkg) pkg.scripts =
      [Event.sys ("set -- " ++ pkg.name ++ "-" ++ pkg.version ++ " POST-INSTALL\n" ++ s2)
         (s ("set -- " ++ pkg.name ++ "-" ++ pkg.version ++ " POST-INSTALL\n" ++ s2)),
       Event.sys ("set -- " ++ pkg.name ++ "-" ++ pkg.version ++ "\n" ++ s3)
         (s ("set -- " ++ pkg.name ++ "-" ++ pkg.version ++ "\n" ++ s3))] := by
    rw [hscr]
    simp [runScripts, postScriptCmd]
  constructor
  · rw [pkg_add_succ]
    simp only [hb]
    rw [hpre, hpost]
    simp
  · exact runExecs_eq_filter s pkg.execs

/-- C1: registration is gated on every earlier step of the same transaction:
the returned code is the body's code, the register step appends the package's
identity exactly when the body finished with `EPKG_OK`, and — provided no
nested dependency install registered that same identity — the identity is in
the final database if and only if the transaction succeeded. -/
theorem C1_register_iff_success (col : Collab) (s : String → Int) (fuel : Nat)
    (w : World) (path : String) (pkg : Pkg) (a : Archive)
    (pp : Option (Option Pkg))
    (hopen : col.open2 path = OpenRes.ok pkg a ∨
             col.open2 path = OpenRes.noFiles pkg a)
    (hnb : pkg.origin ∉ (pkg_addBody col s (pkgAddRec col s fuel) w path).db) :
    (pkg_add col s (fuel + 1) w (some path) pp).retcode =
      (pkg_addBody col s (pkgAddRec col s fuel) w path).retcode ∧
    (pkg_add col s (fuel + 1) w (some path) pp).db =
      (if (pkg_addBody col s (pkgAddRec col s fuel) w path).retcode = EPKG_OK
       then (pkg_addBody col s (pkgAddRec col s fuel) w path).db ++ [pkg.origin]
       else (pkg_addBody col s (pkgAddRec col s fuel) w path).db) ∧
    (pkg.origin ∈ (pkg_add col s (fuel + 1) w (some path) pp).db ↔
      (pkg_add col s (fuel + 1) w (some path) pp).retcode = EPKG_OK) := by
  have hpk : (pkg_addBody col s (pkgAddRec col s fuel) w path).pkg = some pkg := by
    rcases hopen with h | h <;> rw [pkg_addBody, h] <;> exact bodyAfterOpen_pkg ..
  rw [pkg_add_succ]
  by_cases hrc : (pkg_addBody col s (pkgAddRec col s fuel) w path).retcode = EPKG_OK
  · simp [hrc, hpk]
  · simp [hrc, hnb]

/-- The dependency loop's retcode and world do not depend on the trace of the
recursive installer: two installers agreeing on retcode, database, filesystem
and error message yield the same loop outcome. -/
theorem depLoop_congr (rec1 rec2 : World → String → AddOut) (acc : String → Bool)
    (basedir ext : String)
    (h : ∀ w2 p2, (rec1 w2 p2).retcode = (rec2 w2 p2).retcode ∧
                  (rec1 w2 p2).db = (rec2 w2 p2).db ∧
                  (rec1 w2 p2).fs = (rec2 w2 p2).fs ∧
                  (rec1 w2 p2).err = (rec2 w2 p2).err)
    (w : World) (ds : List Dep) :
    (depLoop rec1 acc basedir ext w ds).retcode =
      (depLoop rec2 acc basedir ext w ds).retcode ∧
    (depLoop rec1 acc basedir ext w ds).w =
      (depLoop rec2 acc basedir ext w ds).w := by
  induction ds generalizing w with
  | nil => exact ⟨rfl, rfl⟩
  | cons d rest ih =>
    by_cases hmem : d.origin ∈ w.db
    · simp only [depLoop, if_pos hmem]
      exact ih w
    · obtain ⟨h1, h2, h3, h4⟩ :=
        h w (basedir ++ "/" ++ d.name ++ "-" ++ d.version ++ ext)
      by_cases hacc : acc (basedir ++ "/" ++ d.name ++ "-" ++ d.version ++ ext) = true
      · by_cases hr :
          (rec2 w (basedir ++ "/" ++ d.name ++ "-" ++ d.version ++ ext)).retcode
            = EPKG_OK
        · have hieq := ih
            ⟨(rec2 w (basedir ++ "/" ++ d.name ++ "-" ++ d.version ++ ext)).db,
             (rec2 w (basedir ++ "/" ++ d.name ++ "-" ++ d.version ++ ext)).fs,
             (rec2 w (basedir ++ "/" ++ d.name ++ "-" ++ d.version ++ ext)).err⟩
          simp only [depLoop, if_neg hmem, hacc, if_true, h1, h2, h3, h4, hr,
            if_pos, ite_true, eq_self_iff_true]
          exact hieq
        · simp [depLoop, if_neg hmem, hacc, h1, h2, h3, h4, if_neg hr]
      · simp [depLoop, if_neg hmem, if_neg hacc]

/-- The body's non-trace outputs do not depend on the shell's exit statuses
nor on the trace of the recursive installer. -/
theorem bodyAfterOpen_congr (col : Collab) (s1 s2 : String → Int)
    (rec1 rec2 : World → String → AddOut)
    (h : ∀ w2 p2, (rec1 w2 p2).retcode = (rec2 w2 p2).retcode ∧
                  (rec1 w2 p2).db = (rec2 w2 p2).db ∧
                  (rec1 w2 p2).fs = (rec2 w2 p2).fs ∧
                  (rec1 w2 p2).err = (rec2 w2 p2).err)
    (w : World) (path : String) (pkg : Pkg) (a : Archive) (dx : Bool) :
    (bodyAfterOpen col s1 rec1 w path pkg a dx).retcode =
      (bodyAfterOpen col s2 rec2 w path pkg a dx).retcode ∧
    (bodyAfterOpen col s1 rec1 w path pkg a dx).db =
      (bodyAfterOpen col s2 rec2 w path pkg a dx).db ∧
    (bodyAfterOpen col s1 rec1 w path pkg a dx).fs =
      (bodyAfterOpen col s2 rec2 w path pkg a dx).fs ∧
    (bodyAfterOpen col s1 rec1 w path pkg a dx).err =
      (bodyAfterOpen col s2 rec2 w path pkg a dx).err ∧
    (bodyAfterOpen col s1 rec1 w path pkg a dx).pkg =
      (bodyAfterOpen col s2 rec2 w path pkg a dx).pkg := by
  by_cases hdup : pkg.origin ∈ w.db
  · simp [bodyAfterOpen, hdup]
  · cases hext : extOf path with
    | none => simp [bodyAfterOpen, hdup, hext]
    | some ext =>
      obtain ⟨hd1, hd2⟩ :=
        depLoop_congr rec1 rec2 col.access (dirname path) ext h w pkg.deps
      by_cases hrc :
        (depLoop rec2 col.access (dirname path) ext w pkg.deps).retcode = EPKG_OK
      · cases dx with
        | false => simp [bodyAfterOpen, hdup, hext, hd1, hd2, hrc]
        | true =>
          simp [bodyAfterOpen, hdup, hext, hd1, hd2, hrc]
          split <;> simp
      · cases dx <;>
          simp [bodyAfterOpen, hdup, hext, hd1, hd2, hrc]

/-- C8: the terminal outcome (code and error message), the database, the
filesystem and the caller-visible out-parameter of `pkg_add` are identical
for any two shell-execution collaborators, however their exit statuses
differ: script and exec failures are never propagated into the transaction
outcome or the registration state. -/
theorem C8_exit_status_never_propagated (col : Collab) (s1 s2 : String → Int)
    (fuel : Nat) (w : World) (path : Option String) (pp : Option (Option Pkg)) :
    (pkg_add col s1 fuel w path pp).retcode = (pkg_add col s2 fuel w path pp).retcode ∧
    (pkg_add col s1 fuel w path pp).db = (pkg_add col s2 fuel w path pp).db ∧
    (pkg_add col s1 fuel w path pp).fs = (pkg_add col s2 fuel w path pp).fs ∧
    (pkg_add col s1 fuel w path pp).err = (pkg_add col s2 fuel w path pp).err ∧
    (pkg_add col s1 fuel w path pp).outp = (pkg_add col s2 fuel w path pp).outp := by
  induction fuel generalizing w path pp with
  | zero => cases path <;> exact ⟨rfl, rfl, rfl, rfl, rfl⟩
  | succ fuel ih =>
    cases path with
    | none => exact ⟨rfl, rfl, rfl, rfl, rfl⟩
    | some p =>
      have hrec : ∀ w2 p2,
          (pkgAddRec col s1 fuel w2 p2).retcode = (pkgAddRec col s2 fuel w2 p2).retcode ∧
          (pkgAddRec col s1 fuel w2 p2).db = (pkgAddRec col s2 fuel w2 p2).db ∧
          (pkgAddRec col s1 fuel w2 p2).fs = (pkgAddRec col s2 fuel w2 p2).fs ∧
          (pkgAddRec col s1 fuel w2 p2).err = (pkgAddRec col s2 fuel w2 p2).err := by
        intro w2 p2
        obtain ⟨a1, a2, a3, a4, a5⟩ := ih w2 (some p2) none
        exact ⟨a1, a2, a3, a4⟩
      have hbody : (pkg_addBody col s1 (pkgAddRec col s1 fuel) w p).retcode =
            (pkg_addBody col s2 (pkgAddRec col s2 fuel) w p).retcode ∧
          (pkg_addBody col s1 (pkgAddRec col s1 fuel) w p).db =
            (pkg_addBody col s2 (pkgAddRec col s2 fuel) w p).db ∧
          (pkg_addBody col s1 (pkgAddRec col s1 fuel) w p).fs =
            (pkg_addBody col s2 (pkgAddRec col s2 fuel) w p).fs ∧
          (pkg_addBody col s1 (pkgAddRec col s1 fuel) w p).err =
            (pkg_addBody col s2 (pkgAddRec col s2 fuel) w p).err ∧
          (pkg_addBody col s1 (pkgAddRec col s1 fuel) w p).pkg =
            (pkg_addBody col s2 (pkgAddRec col s2 fuel) w p).pkg := by
        cases hop : col.open2 p with
        | ok pkg a =>
          have := bodyAfterOpen_congr col s1 s2 _ _ hrec w p pkg a true
          simpa [pkg_addBody, hop] using this
        | noFiles pkg a =>
          have := bodyAfterOpen_congr col s1 s2 _ _ hrec w p pkg a false
          simpa [pkg_addBody, hop] using this
        | err code msg => simp [pkg_addBody, hop]
      obtain ⟨b1, b2, b3, b4, b5⟩ := hbody
      rw [pkg_add_succ, pkg_add_succ]
      simp [b1, b2, b3, b4, b5]

/-- C4 (amended): when the first unresolved dependency has a candidate
sibling archive, `pkg_add` recursively installs it (`pkg_add(db, dpath,
NULL)` with the remaining recursion budget). If the recursive install fails,
the whole transaction aborts with the generic `EPKG_FATAL` code — not a
dedicated code — whose message wraps the recursive failure's message. If it
succeeds, dependency resolution is re-run against the updated database before
the next declared dependency is examined: a later dependency whose identity
the recursive install registered is accepted even though it has no candidate
sibling archive of its own, and the transaction completes and registers the
dependent package. -/
theorem C4_recursive_install_and_reresolution (col : Collab) (s : String → Int)
    (fuel : Nat) (w : World) (path : String) (pkg : Pkg) (a : Archive)
    (pp : Option (Option Pkg)) (pre : List Dep) (d d2 : Dep) (ext dpath : String)
    (hopen : col.open2 path = OpenRes.ok pkg a)
    (hdup : pkg.origin ∉ w.db)
    (hext : extOf path = some ext)
    (hdeps : pkg.deps = pre ++ [d, d2])
    (hpre : ∀ x ∈ pre, x.origin ∈ w.db)
    (hd : d.origin ∉ w.db)
    (hdpath : dpath = dirname path ++ "/" ++ d.name ++ "-" ++ d.version ++ ext)
    (hacc : col.access dpath = true) :
    ((pkg_add col s fuel w (some dpath) none).retcode ≠ EPKG_OK →
      (pkg_add col s (fuel + 1) w (some path) pp).retcode = EPKG_FATAL ∧
      (pkg_add col s (fuel + 1) w (some path) pp).err =
        "error while installing " ++ dpath ++ " (dependency): " ++
          (pkg_add col s fuel w (some dpath) none).err ∧
      (pkg_add col s (fuel + 1) w (some path) pp).db =
        (pkg_add col s fuel w (some dpath) none).db ∧
      (pkg_add col s (fuel + 1) w (some path) pp).trace =
        (pkg_add col s fuel w (some dpath) none).trace) ∧
    ((pkg_add col s fuel w (some dpath) none).retcode = EPKG_OK →
      d2.origin ∈ (pkg_add col s fuel w (some dpath) none).db →
      col.access (dirname path ++ "/" ++ d2.name ++ "-" ++ d2.version ++ ext) = false →
      (∀ e ∈ a.entries, e.ok = true) → a.eofOk = true →
      (pkg_add col s (fuel + 1) w (some path) pp).retcode = EPKG_OK ∧
      (pkg_add col s (fuel + 1) w (some path) pp).db =
        (pkg_add col s fuel w (some dpath) none).db ++ [pkg.origin]) := by
  have hstep : depLoop (pkgAddRec col s fuel) col.access (dirname path) ext w pkg.deps
      = (if (pkg_add col s fuel w (some dpath) none).retcode = EPKG_OK then
          (let tail := depLoop (pkgAddRec col s fuel) col.access (dirname path) ext
            ⟨(pkg_add col s fuel w (some dpath) none).db,
             (pkg_add col s fuel w (some dpath) none).fs,
             (pkg_add col s fuel w (some dpath) none).err⟩ [d2]
           ⟨tail.retcode, tail.w,
            (pkg_add col s fuel w (some dpath) none).trace ++ tail.trace⟩)
         else
          ⟨EPKG_FATAL,
           ⟨(pkg_add col s fuel w (some dpath) none).db,
            (pkg_add col s fuel w (some dpath) none).fs,
            "error while installing " ++ dpath ++ " (dependency): " ++
              (pkg_add col s fuel w (some dpath) none).err⟩,
           (pkg_add col s fuel w (some dpath) none).trace⟩) := by
    rw [hdeps, depLoop_skip_sat _ _ _ _ _ _ _ hpre]
    subst hdpath
    simp only [depLoop, if_neg hd, hacc, if_true, ite_true, eq_self_iff_true]
    rfl
  constructor
  · intro hfail
    have hdl : depLoop (pkgAddRec col s fuel) col.access (dirname path) ext w pkg.deps
        = ⟨EPKG_FATAL,
           ⟨(pkg_add col s fuel w (some dpath) none).db,
            (pkg_add col s fuel w (some dpath) none).fs,
            "error while installing " ++ dpath ++ " (dependency): " ++
              (pkg_add col s fuel w (some dpath) none).err⟩,
           (pkg_add col s fuel w (some dpath) none).trace⟩ := by
      rw [hstep, if_neg hfail]
    have hb : pkg_addBody col s (pkgAddRec col s fuel) w path =
        ⟨EPKG_FATAL,
         (pkg_add col s fuel w (some dpath) none).db,
         (pkg_add col s fuel w (some dpath) none).fs,
         "error while installing " ++ dpath ++ " (dependency): " ++
           (pkg_add col s fuel w (some dpath) none).err,
         (pkg_add col s fuel w (some dpath) none).trace, some pkg⟩ := by
      simp [pkg_addBody, hopen, bodyAfterOpen, hdup, hext, hdl, EPKG_FATAL_ne_OK]
    rw [pkg_add_succ]
    simp [hb, EPKG_FATAL_ne_OK]
  · intro hok0 hd2db hacc2 hentry heof
    have htail : depLoop (pkgAddRec col s fuel) col.access (dirname path) ext
        ⟨(pkg_add col s fuel w (some dpath) none).db,
         (pkg_add col s fuel w (some dpath) none).fs,
         (pkg_add col s fuel w (some dpath) none).err⟩ [d2]
        = ⟨EPKG_OK,
           ⟨(pkg_add col s fuel w (some dpath) none).db,
            (pkg_add col s fuel w (some dpath) none).fs,
            (pkg_add col s fuel w (some dpath) none).err⟩, []⟩ := by
      have : ∀ x ∈ [d2], x.origin ∈
          (⟨(pkg_add col s fuel w (some dpath) none).db,
            (pkg_add col s fuel w (some dpath) none).fs,
            (pkg_add col s fuel w (some dpath) none).err⟩ : World).db := by
        intro x hx
        rw [List.mem_singleton] at hx
        subst hx
        exact hd2db
      exact depLoop_all_sat _ _ _ _ _ _ this
    have hdl : depLoop (pkgAddRec col s fuel) col.access (dirname path) ext w pkg.deps
        = ⟨EPKG_OK,
           ⟨(pkg_add col s fuel w (some dpath) none).db,
            (pkg_add col s fuel w (some dpath) none).fs,
            (pkg_add col s fuel w (some dpath) none).err⟩,
           (pkg_add col s fuel w (some dpath) none).trace ++ []⟩ := by
      rw [hstep, if_pos hok0, htail]
    have hex := do_extract_ok a (pkg_add col s fuel w (some dpath) none).fs
      (pkg_add col s fuel w (some dpath) none).err hentry heof
    have hb : (pkg_addBody col s (pkgAddRec col s fuel) w path).retcode = EPKG_OK ∧
        (pkg_addBody col s (pkgAddRec col s fuel) w path).db =
          (pkg_add col s fuel w (some dpath) none).db ∧
        (pkg_addBody col s (pkgAddRec col s fuel) w path).pkg = some pkg := by
      simp [pkg_addBody, hopen, bodyAfterOpen, hdup, hext, hdl, hex]
    rw [pkg_add_succ]
    simp [hb.1, hb.2.1, hb.2.2]

/-- If the body finished with `EPKG_OK` and `pkg_open2` never reports the
success code as a failure code at this path, the body carries a descriptor. -/
theorem pkg_addBody_ok_pkg (col : Collab) (s : String → Int)
    (recurse : World → String → AddOut) (w : World) (path : String)
    (hcol : ∀ c m, col.open2 path = OpenRes.err c m → c ≠ EPKG_OK)
    (hrc : (pkg_addBody col s recurse w path).retcode = EPKG_OK) :
    ∃ pk : Pkg, (pkg_addBody col s recurse w path).pkg = some pk := by
  cases hop : col.open2 path with
  | ok pkg a =>
    exact ⟨pkg, by rw [pkg_addBody, hop]; exact bodyAfterOpen_pkg ..⟩
  | noFiles pkg a =>
    exact ⟨pkg, by rw [pkg_addBody, hop]; exact bodyAfterOpen_pkg ..⟩
  | err code msg =>
    rw [pkg_addBody, hop] at hrc
    exact absurd hrc (hcol code msg hop)

/-- C2 (code-bug evidence): `conf1.cfg.pkgconf` is classified as the template
for the real path `conf1.cfg`; extracting an archive containing it over a
filesystem where `conf1.cfg` is absent succeeds, yet leaves `conf1.cfg`
absent — the seeding branch at source lines 42-46 is unreachable because
`lstat(path, &st) == ENOENT` can never hold (`lstat` returns `0` or `-1`,
never an `errno` value, see `lstat_ne_ENOENT`) — while a pre-existing
`conf1.cfg` with content `custom` stays byte-identical and the template entry
itself is extracted to its stored path. -/
theorem C2_config_template_never_seeded :
    is_conf_file "conf1.cfg.pkgconf" = some "conf1.cfg" ∧
    (do_extract archTpl [] "").1 = EPKG_OK ∧
    fsExists [] "conf1.cfg" = false ∧
    fsExists (do_extract archTpl [] "").2.1 "conf1.cfg" = false ∧
    fsGet (do_extract archTpl [] "").2.1 "conf1.cfg.pkgconf" = some "tpl" ∧
    fsGet (do_extract archTpl [("conf1.cfg", "custom")] "").2.1 "conf1.cfg" =
      some "custom" := by
  decide

/-- C4 counterexample: at a concrete input where the recursive install of a
dependency fails, the transaction returns `EPKG_FATAL` — literally the same
outcome code a generic fatal error yields (here: a path without an
extension) — so the dependency-install failure is not a distinct outcome,
only its message wraps the nested failure. -/
theorem C4_counterexample_not_distinguishable :
    (pkg_add colDepFail zeroS 2 w0 (some "d/a-1.0.txz") none).retcode = EPKG_FATAL ∧
    (pkg_add colDepFail zeroS 2 w0 (some "d/a-1.0.txz") none).err =
      "error while installing d/b-2.0.txz (dependency): boom" ∧
    (pkg_add colNoExt zeroS 2 w0 (some "noext") none).retcode = EPKG_FATAL ∧
    (pkg_add colDepFail zeroS 2 w0 (some "d/a-1.0.txz") none).retcode =
      (pkg_add colNoExt zeroS 2 w0 (some "noext") none).retcode := by
  decide

/-- C9 counterexample: invoked with a `NULL` path and a non-`NULL`
out-parameter holding a stale descriptor, `pkg_add` returns a non-success
outcome (the `ERROR_BAD_ARG` early return at source lines 76-77) yet leaves
the out-parameter untouched rather than setting it to `NULL`. -/
theorem C9_counterexample_null_path :
    (pkg_add colPlain zeroS 1 w0 none (some (some pkgPlain))).retcode ≠ EPKG_OK ∧
    (pkg_add colPlain zeroS 1 w0 none (some (some pkgPlain))).outp =
      some (some pkgPlain) ∧
    (pkg_add colPlain zeroS 1 w0 none (some (some pkgPlain))).outp ≠ some none := by
  decide

/-- C9 (amended): on every invocation whose path is non-`NULL`, a non-`NULL`
out-parameter receives the populated descriptor exactly on success and `NULL`
on every non-success outcome, and the archive-release invariant of the
cleanup path holds; on the `NULL`-path argument-validation early return the
out-parameter is left unmodified (and the outcome is not success). The open
collaborator is assumed never to report `EPKG_OK` as a failure code, as
`pkg_open2` cannot. -/
theorem C9_out_param_iff_success (col : Collab) (s : String → Int) (fuel : Nat)
    (w : World) (p : String) (prev : Option Pkg)
    (hcol : ∀ c m, col.open2 p = OpenRes.err c m → c ≠ EPKG_OK) :
    ((pkg_add col s fuel w (some p) (some prev)).retcode = EPKG_OK ∧
       (∃ dsc : Pkg, (pkg_add col s fuel w (some p) (some prev)).outp =
         some (some dsc)) ∨
     ((pkg_add col s fuel w (some p) (some prev)).retcode ≠ EPKG_OK ∧
       (pkg_add col s fuel w (some p) (some prev)).outp = some none)) ∧
    (pkg_add col s fuel w (some p) (some prev)).released = true ∧
    (pkg_add col s fuel w none (some prev)).outp = some prev ∧
    (pkg_add col s fuel w none (some prev)).retcode ≠ EPKG_OK ∧
    (pkg_add col s fuel w none (some prev)).released = true := by
  cases fuel with
  | zero =>
    exact ⟨Or.inr ⟨EPKG_FATAL_ne_OK, rfl⟩, rfl, rfl, EPKG_FATAL_ne_OK, rfl⟩
  | succ fuel =>
    refine ⟨?_, ?_, rfl, EPKG_FATAL_ne_OK, rfl⟩
    · rw [pkg_add_succ]
      by_cases hrc :
        (pkg_addBody col s (pkgAddRec col s fuel) w p).retcode = EPKG_OK
      · obtain ⟨pk, hpk⟩ :=
          pkg_addBody_ok_pkg col s (pkgAddRec col s fuel) w p hcol hrc
        exact Or.inl ⟨by simp [hrc], ⟨pk, by simp [hrc, hpk]⟩⟩
      · exact Or.inr ⟨by simp [hrc], by simp [hrc]⟩
    · rw [pkg_add_succ]

/-! ## Witnesses: the claim theorems applied at concrete environments -/

/-- Witness for C10: a package with no dependencies at path `noext`. -/
theorem C10_extension_check_unconditional_w :
    (pkg_add colNoExt zeroS 1 w0 (some "noext") none).retcode = EPKG_FATAL ∧
    (pkg_add colNoExt zeroS 1 w0 (some "noext") none).err =
      "noext" ++ " has no extension" ∧
    (pkg_add colNoExt zeroS 1 w0 (some "noext") none).db = w0.db ∧
    (pkg_add colNoExt zeroS 1 w0 (some "noext") none).fs = w0.fs ∧
    (pkg_add colNoExt zeroS 1 w0 (some "noext") none).trace = [] :=
  C10_extension_check_unconditional colNoExt zeroS 0 w0 "noext" pkgPlain archOk
    none (Or.inl (by decide)) (by decide) (by decide)

/-- Witness for C3: `a-1.0` depends on `b-2.0`, whose sibling archive is
absent. -/
theorem C3_missing_dependency_halts_w :
    (pkg_add colDepMissing zeroS 1 w0 (some "d/a-1.0.txz") none).retcode =
      EPKG_DEPENDENCY ∧
    (pkg_add colDepMissing zeroS 1 w0 (some "d/a-1.0.txz") none).err =
      "missing " ++ depB.name ++ "-" ++ depB.version ++ " dependency" ∧
    (pkg_add colDepMissing zeroS 1 w0 (some "d/a-1.0.txz") none).db = w0.db ∧
    (pkg_add colDepMissing zeroS 1 w0 (some "d/a-1.0.txz") none).fs = w0.fs ∧
    (pkg_add colDepMissing zeroS 1 w0 (some "d/a-1.0.txz") none).trace = [] ∧
    pkgDepMissing.origin ∉
      (pkg_add colDepMissing zeroS 1 w0 (some "d/a-1.0.txz") none).db :=
  C3_missing_dependency_halts colDepMissing zeroS 0 w0 "d/a-1.0.txz"
    pkgDepMissing archOk none [] [] depB ".txz" (Or.inl (by decide)) (by decide)
    (by decide) (by decide) (by decide) (by decide) (by decide)

/-- Witness for C5: installing `a-1.0` into an empty database succeeds, a
second install is rejected as already installed, and the database holds
exactly one record for `org/a`. -/
theorem C5_idempotent_rejection_w :
    EPKG_INSTALLED ≠ EPKG_OK ∧ EPKG_INSTALLED ≠ EPKG_FATAL ∧
    (pkg_add colPlain zeroS 1 ⟨["org/a"], [], ""⟩ (some "d/a-1.0.txz") none).retcode
      = EPKG_INSTALLED ∧
    (pkg_add colPlain zeroS 1 w0 (some "d/a-1.0.txz") none).retcode = EPKG_OK ∧
    (pkg_add colPlain zeroS 1 w0 (some "d/a-1.0.txz") none).db =
      w0.db ++ [pkgPlain.origin] ∧
    (pkg_add colPlain zeroS 1
        ⟨(pkg_add colPlain zeroS 1 w0 (some "d/a-1.0.txz") none).db,
         (pkg_add colPlain zeroS 1 w0 (some "d/a-1.0.txz") none).fs,
         (pkg_add colPlain zeroS 1 w0 (some "d/a-1.0.txz") none).err⟩
        (some "d/a-1.0.txz") none).retcode = EPKG_INSTALLED ∧
    ((pkg_add colPlain zeroS 1
        ⟨(pkg_add colPlain zeroS 1 w0 (some "d/a-1.0.txz") none).db,
         (pkg_add colPlain zeroS 1 w0 (some "d/a-1.0.txz") none).fs,
         (pkg_add colPlain zeroS 1 w0 (some "d/a-1.0.txz") none).err⟩
        (some "d/a-1.0.txz") none).db).count pkgPlain.origin = 1 := by
  have T := C5_idempotent_rejection colPlain zeroS 0 w0 "d/a-1.0.txz" pkgPlain
    archOk ".txz" none (by decide) (by decide) (by decide) (by decide)
    (by decide) (by decide)
  exact ⟨T.1, T.2.1, (T.2.2.1 ⟨["org/a"], [], ""⟩ (by decide)).1, T.2.2.2.1,
    T.2.2.2.2.1, T.2.2.2.2.2.1, T.2.2.2.2.2.2⟩

/-- Witness for C6: an archive with no installable entries but with scripts
and exec directives still registers, with no extraction event. -/
theorem C6_no_entries_still_registers_w :
    (pkg_add colNoFiles zeroS 1 w0 (some "d/a-1.0.txz") none).retcode = EPKG_OK ∧
    (pkg_add colNoFiles zeroS 1 w0 (some "d/a-1.0.txz") none).db =
      w0.db ++ [pkgWithScripts.origin] ∧
    (pkg_add colNoFiles zeroS 1 w0 (some "d/a-1.0.txz") none).fs = w0.fs ∧
    (pkg_add colNoFiles zeroS 1 w0 (some "d/a-1.0.txz") none).trace =
      runScripts zeroS (preScriptCmd pkgWithScripts) pkgWithScripts.scripts ++
        runScripts zeroS (postScriptCmd pkgWithScripts) pkgWithScripts.scripts ++
        runExecs zeroS pkgWithScripts.execs ∧
    Event.extract ∉ (pkg_add colNoFiles zeroS 1 w0 (some "d/a-1.0.txz") none).trace :=
  C6_no_entries_still_registers colNoFiles zeroS 0 w0 "d/a-1.0.txz"
    pkgWithScripts archOk ".txz" none (by decide) (by decide) (by decide)
    (by decide)

/-- Witness for C7: the package with one PreInstall (`P`), one Install (`I`),
one PostInstall (`Q`) script, one `@exec` and one `@unexec` directive. -/
theorem C7_script_exec_order_w :
    (pkg_add colScripts zeroS 1 w0 (some "d/a-1.0.txz") none).trace =
      [Event.sys ("set -- " ++ pkgWithScripts.name ++ "-" ++ pkgWithScripts.version
          ++ "\n" ++ "P")
         (zeroS ("set -- " ++ pkgWithScripts.name ++ "-" ++ pkgWithScripts.version
          ++ "\n" ++ "P")),
       Event.sys ("set -- " ++ pkgWithScripts.name ++ "-" ++ pkgWithScripts.version
          ++ " INSTALL\n" ++ "I")
         (zeroS ("set -- " ++ pkgWithScripts.name ++ "-" ++ pkgWithScripts.version
          ++ " INSTALL\n" ++ "I")),
       Event.extract,
       Event.sys ("set -- " ++ pkgWithScripts.name ++ "-" ++ pkgWithScripts.version
          ++ " POST-INSTALL\n" ++ "I")
         (zeroS ("set -- " ++ pkgWithScripts.name ++ "-" ++ pkgWithScripts.version
          ++ " POST-INSTALL\n" ++ "I")),
       Event.sys ("set -- " ++ pkgWithScripts.name ++ "-" ++ pkgWithScripts.version
          ++ "\n" ++ "Q")
         (zeroS ("set -- " ++ pkgWithScripts.name ++ "-" ++ pkgWithScripts.version
          ++ "\n" ++ "Q"))] ++
      runExecs zeroS pkgWithScripts.execs ∧
    runExecs zeroS pkgWithScripts.execs =
      (pkgWithScripts.execs.filter (fun e => e.etype == ExecType.exec)).map
        (fun e => Event.sys e.cmd (zeroS e.cmd)) :=
  C7_script_exec_order colScripts zeroS 0 w0 "d/a-1.0.txz" pkgWithScripts archOk
    ".txz" none "P" "I" "Q" (by decide) (by decide) (by decide) (by decide)
    (by decide) (by decide) (by decide)

/-- Witness for C1: a dependency-free install from an empty database. -/
theorem C1_register_iff_success_w :
    (pkg_add colPlain zeroS 1 w0 (some "d/a-1.0.txz") none).retcode =
      (pkg_addBody colPlain zeroS (pkgAddRec colPlain zeroS 0) w0 "d/a-1.0.txz").retcode ∧
    (pkg_add colPlain zeroS 1 w0 (some "d/a-1.0.txz") none).db =
      (if (pkg_addBody colPlain zeroS (pkgAddRec colPlain zeroS 0) w0
            "d/a-1.0.txz").retcode = EPKG_OK
       then (pkg_addBody colPlain zeroS (pkgAddRec colPlain zeroS 0) w0
            "d/a-1.0.txz").db ++ [pkgPlain.origin]
       else (pkg_addBody colPlain zeroS (pkgAddRec colPlain zeroS 0) w0
            "d/a-1.0.txz").db) ∧
    (pkgPlain.origin ∈ (pkg_add colPlain zeroS 1 w0 (some "d/a-1.0.txz") none).db ↔
      (pkg_add colPlain zeroS 1 w0 (some "d/a-1.0.txz") none).retcode = EPKG_OK) :=
  C1_register_iff_success colPlain zeroS 0 w0 "d/a-1.0.txz" pkgPlain archOk none
    (Or.inl (by decide)) (by decide)

/-- Witness for C4 (amended): the failing branch at `colDepFail` (dependency
archive present but unopenable) and the succeeding branch at `colDepTwo`
(dependency `b` transitively registers `org/c`, satisfying `c` on
re-resolution although `c` has no candidate archive). -/
theorem C4_recursive_install_and_reresolution_w :
    ((pkg_add colDepFail zeroS 2 w0 (some "d/a-1.0.txz") none).retcode = EPKG_FATAL ∧
     (pkg_add colDepFail zeroS 2 w0 (some "d/a-1.0.txz") none).err =
       "error while installing " ++ "d/b-2.0.txz" ++ " (dependency): " ++
         (pkg_add colDepFail zeroS 1 w0 (some "d/b-2.0.txz") none).err ∧
     (pkg_add colDepFail zeroS 2 w0 (some "d/a-1.0.txz") none).db =
       (pkg_add colDepFail zeroS 1 w0 (some "d/b-2.0.txz") none).db ∧
     (pkg_add colDepFail zeroS 2 w0 (some "d/a-1.0.txz") none).trace =
       (pkg_add colDepFail zeroS 1 w0 (some "d/b-2.0.txz") none).trace) ∧
    ((pkg_add colDepTwo zeroS 3 w0 (some "d/a-1.0.txz") none).retcode = EPKG_OK ∧
     (pkg_add colDepTwo zeroS 3 w0 (some "d/a-1.0.txz") none).db =
       (pkg_add colDepTwo zeroS 2 w0 (some "d/b-2.0.txz") none).db ++
         [pkgDepTwo.origin]) := by
  constructor
  · exact (C4_recursive_install_and_reresolution colDepFail zeroS 1 w0
      "d/a-1.0.txz" pkgDepTwo archOk none [] depB depC ".txz" "d/b-2.0.txz"
      (by decide) (by decide) (by decide) (by decide) (by decide) (by decide)
      (by decide) (by decide)).1 (by decide)
  · exact (C4_recursive_install_and_reresolution colDepTwo zeroS 2 w0
      "d/a-1.0.txz" pkgDepTwo archOk none [] depB depC ".txz" "d/b-2.0.txz"
      (by decide) (by decide) (by decide) (by decide) (by decide) (by decide)
      (by decide) (by decide)).2 (by decide) (by decide) (by decide) (by decide)
      (by decide)

/-- Witness for C9 (amended), at a successful install with a stale
out-parameter value, plus the `NULL`-path behavior. -/
theorem C9_out_param_iff_success_w :
    (pkg_add colPlain zeroS 1 w0 (some "d/a-1.0.txz") (some (some pkgPlain))).released
      = true ∧
    (pkg_add colPlain zeroS 1 w0 none (some (some pkgPlain))).outp =
      some (some pkgPlain) ∧
    (pkg_add colPlain zeroS 1 w0 none (some (some pkgPlain))).retcode ≠ EPKG_OK ∧
    (pkg_add colPlain zeroS 1 w0 none (some (some pkgPlain))).released = true := by
  have T := C9_out_param_iff_success colPlain zeroS 1 w0 "d/a-1.0.txz"
    (some pkgPlain) (fun c m h => by simp [colPlain] at h)
  exact ⟨T.2.1, T.2.2.1, T.2.2.2.1, T.2.2.2.2⟩

end PkgAdd
